import Mathlib

/-!
Shallow embedding of the rtic-scope `racer` frontend core: the
newline-framed event-stream decoder (src/event_stream.rs) and the span
index / viewport model (src/timeline.rs, module `grid`).

Rust `f32` values are modelled by `F`: exact rational arithmetic
extended with the two infinities and NaN.  IEEE-754 rounding and the
sign of zero are not modelled; no property below depends on either.
-/

namespace Racer

/-- Model of a Rust `f32` value: a finite rational, an infinity, or
NaN.  Finite arithmetic is exact and negative zero is identified with
zero. -/
inductive F where
  | fin (q : ℚ)
  | inf
  | neginf
  | nan
deriving DecidableEq

/-- Float addition (`+` on `f32`). -/
def F.add : F → F → F
  | .nan, _ => .nan
  | _, .nan => .nan
  | .inf, .neginf => .nan
  | .neginf, .inf => .nan
  | .inf, _ => .inf
  | _, .inf => .inf
  | .neginf, _ => .neginf
  | _, .neginf => .neginf
  | .fin a, .fin b => .fin (a + b)

/-- Float subtraction (`-` on `f32`). -/
def F.sub : F → F → F
  | .nan, _ => .nan
  | _, .nan => .nan
  | .inf, .inf => .nan
  | .neginf, .neginf => .nan
  | .inf, _ => .inf
  | _, .inf => .neginf
  | .neginf, _ => .neginf
  | _, .neginf => .inf
  | .fin a, .fin b => .fin (a - b)

/-- Float multiplication (`*` on `f32`). -/
def F.mul : F → F → F
  | .nan, _ => .nan
  | _, .nan => .nan
  | .fin a, .fin b => .fin (a * b)
  | .inf, .inf => .inf
  | .inf, .neginf => .neginf
  | .neginf, .inf => .neginf
  | .neginf, .neginf => .inf
  | .inf, .fin b => if b = 0 then .nan else if 0 < b then .inf else .neginf
  | .fin a, .inf => if a = 0 then .nan else if 0 < a then .inf else .neginf
  | .neginf, .fin b => if b = 0 then .nan else if 0 < b then .neginf else .inf
  | .fin a, .neginf => if a = 0 then .nan else if 0 < a then .neginf else .inf

/-- Float division (`/` on `f32`); division of a nonzero finite value
by zero yields a signed infinity, `0 / 0` yields NaN. -/
def F.div : F → F → F
  | .nan, _ => .nan
  | _, .nan => .nan
  | .fin a, .fin b =>
      if b = 0 then (if a = 0 then .nan else if 0 < a then .inf else .neginf)
      else .fin (a / b)
  | .fin _, .inf => .fin 0
  | .fin _, .neginf => .fin 0
  | .inf, .inf => .nan
  | .inf, .neginf => .nan
  | .neginf, .inf => .nan
  | .neginf, .neginf => .nan
  | .inf, .fin b => if 0 ≤ b then .inf else .neginf
  | .neginf, .fin b => if 0 ≤ b then .neginf else .inf

/-- Rust `f32::max`: if one argument is NaN the other is returned. -/
def F.fmax : F → F → F
  | .nan, y => y
  | x, .nan => x
  | .inf, _ => .inf
  | _, .inf => .inf
  | .neginf, y => y
  | x, .neginf => x
  | .fin a, .fin b => .fin (max a b)

/-- Rust `f32::min`: if one argument is NaN the other is returned. -/
def F.fmin : F → F → F
  | .nan, y => y
  | x, .nan => x
  | .neginf, _ => .neginf
  | _, .neginf => .neginf
  | .inf, y => y
  | x, .inf => x
  | .fin a, .fin b => .fin (min a b)

/-- A span bar (struct `Bar` in src/timeline.rs). -/
structure Bar where
  start_ns : Nat
  end_ns : Option Nat
  isr : String
  channel : Nat
deriving DecidableEq

/-- The task-action discriminator (`rtic_scope_api::TaskAction`). -/
inductive TaskAction where
  | entered
  | exited
  | returned
deriving DecidableEq

/-- A decoded event record (`rtic_scope_api::EventType`); the
diagnostic payloads of the last three variants are kept as strings. -/
inductive EventType where
  | overflow
  | task (name : String) (action : TaskAction)
  | unknown (payload : String)
  | unmappable (payload : String) (extra : String)
  | invalid (payload : String)
deriving DecidableEq

/-- The `Grid` state (src/timeline.rs, module `grid`).  The two
`Cache` fields are modelled by staleness flags set by `Cache::clear`;
the interval tree `bars` is modelled as the list of inserted
(interval-start, interval-end, data) triples in insertion order, which
records exactly the `insert` calls made on it. -/
structure Grid where
  is_grid_enabled : Bool
  zoom : F
  pan : F
  bars : List (Nat × Nat × Bar)
  started_bars : List Bar
  channel_map : List String
  status : String
  min : Nat
  max : Nat
  width : Nat
  bar_cache_stale : Bool
  grid_cache_stale : Bool
deriving DecidableEq

/-- The zoom clamp floor `1e-8`, modelled as the exact rational. -/
def zoomFloor : ℚ := 1 / 100000000

/-- `Grid::INITIAL_ZOOM` (`0.0`). -/
def initialZoom : ℚ := 0

/-- `Grid::INITIAL_PAN` (`0.5`). -/
def initialPan : ℚ := 1 / 2

/-- `Grid::set_zoom`: store the value, then clamp below by `1e-8`. -/
def Grid.set_zoom (g : Grid) (zoom : F) : Grid :=
  { g with zoom := F.fmax zoom (F.fin zoomFloor) }

/-- `Grid::update_zoom`: `zoom *= 1.0 + delta / 1e2`, then the same
clamp as `set_zoom`. -/
def Grid.update_zoom (g : Grid) (delta : ℚ) : Grid :=
  { g with zoom := F.fmax (F.mul g.zoom (F.fin (1 + delta / 100))) (F.fin zoomFloor) }

/-- `Grid::set_pan`: store the value, then clamp above by `0.5`. -/
def Grid.set_pan (g : Grid) (pan : F) : Grid :=
  { g with pan := F.fmin pan (F.fin (1 / 2)) }

/-- `Grid::update_pan`: `pan += delta / zoom`, then the same clamp as
`set_pan`. -/
def Grid.update_pan (g : Grid) (delta : ℚ) : Grid :=
  { g with pan := F.fmin (F.add g.pan (F.div (F.fin delta) g.zoom)) (F.fin (1 / 2)) }

/-- `Grid::new` (also `Grid::default`): every container empty, `min`
and `max` zero, then `set_zoom(1280.0 / 100.0)` and `set_bars()`
(which re-creates the empty interval tree). -/
def Grid.new : Grid :=
  let s : Grid := {
    is_grid_enabled := true
    zoom := F.fin initialZoom
    pan := F.fin initialPan
    bars := []
    started_bars := []
    channel_map := []
    status := ""
    min := 0
    max := 0
    width := 0
    bar_cache_stale := false
    grid_cache_stale := false }
  let s := s.set_zoom (F.fin (1280 / 100))
  { s with bars := [] }

/-- The channel lookup in the `Entered` arm of `Grid::add_event`
(`find_position` over `channel_map`, pushing the name when absent):
returns the channel index and the updated map. -/
def resolveChannel (cm : List String) (name : String) : Nat × List String :=
  match cm.findIdx? (fun c => c == name) with
  | some index => (index, cm)
  | none => (cm.length, cm ++ [name])

/-- The scan-and-remove loop in the `Exited` arm of `Grid::add_event`:
find the first started bar, in insertion order, with
`start_ns < timestamp` and a matching name; remove it and return it
together with the remaining list. -/
def takeFirstMatch (timestamp : Nat) (name : String) : List Bar → Option (Bar × List Bar)
  | [] => none
  | b :: rest =>
      if b.start_ns < timestamp ∧ b.isr = name then some (b, rest)
      else
        match takeFirstMatch timestamp name rest with
        | none => none
        | some (found, l) => some (found, b :: l)

/-- The auto-fit recomputation at the end of the `Task` arm of
`Grid::add_event` (src/timeline.rs lines 219-234):
`zoom = (screen_start - screen_end) / (start - end)`,
`pan = screen_start / zoom - start`, both fed through the clamping
setters. -/
def Grid.auto_fit (g : Grid) : Grid :=
  let screen_start := F.fin 0
  let screen_end := F.fin (g.width : ℚ)
  let start := F.fin (g.min : ℚ)
  let stop := F.fin (g.max : ℚ)
  let zoom := F.div (F.sub screen_start screen_end) (F.sub start stop)
  let pan := F.sub (F.div screen_start zoom) start
  (g.set_zoom zoom).set_pan pan

/-- The epilogue of the `Task` arm of `Grid::add_event`: the auto-fit
recomputation followed by clearing both render caches. -/
def Grid.finishTask (g : Grid) : Grid :=
  { g.auto_fit with bar_cache_stale := true, grid_cache_stale := true }

/-- `Grid::add_event` (src/timeline.rs lines 178-240). -/
def Grid.add_event (g : Grid) (timestamp : Nat) (event : EventType) : Grid :=
  let timestamp := timestamp - 0
  let g := { g with max := Nat.max g.max timestamp, min := Nat.min g.min timestamp }
  match event with
  | .overflow => g
  | .task name action =>
      let g :=
        match action with
        | .entered =>
            let r := resolveChannel g.channel_map name
            { g with
              channel_map := r.2
              started_bars := g.started_bars ++
                [({ start_ns := timestamp, end_ns := none, isr := name, channel := r.1 } : Bar)] }
        | .exited =>
            match takeFirstMatch timestamp name g.started_bars with
            | none => g
            | some (bar, rest) =>
                { g with
                  started_bars := rest
                  bars := g.bars ++
                    [(bar.start_ns, timestamp, { bar with end_ns := some timestamp })] }
        | .returned => g
      g.finishTask
  | .unknown _ => g
  | .unmappable _ _ => g
  | .invalid _ => g

/-- `Grid::reset_state`: `set_bars()` (empties the interval tree),
restore `INITIAL_ZOOM` and `INITIAL_PAN` directly (without the clamping
setters), and clear both caches.  The other fields are untouched. -/
def Grid.reset_state (g : Grid) : Grid :=
  { g with
    bars := []
    zoom := F.fin initialZoom
    pan := F.fin initialPan
    bar_cache_stale := true
    grid_cache_stale := true }

/-- `Grid::toggle_grid`. -/
def Grid.toggle_grid (g : Grid) (enabled : Bool) : Grid :=
  { g with is_grid_enabled := enabled }

/-- `Grid::set_status`. -/
def Grid.set_status (g : Grid) (s : String) : Grid :=
  { g with status := s }

/-- The width assignment at the top of `canvas::Program::update`
(`self.width = bounds.size().width as usize`). -/
def Grid.set_width (g : Grid) (w : Nat) : Grid :=
  { g with width := w }

/-- The screen coordinate of a timestamp, as computed in `draw`
(`start as f32 * self.zoom + self.pan * self.zoom`); this is the
`screen_x` mapping of the specification. -/
def Grid.screen_x (g : Grid) (ns : Nat) : F :=
  F.add (F.mul (F.fin (ns : ℚ)) g.zoom) (F.mul g.pan g.zoom)

/-- One externally reachable mutation of the `Grid` state: the
ingestion call `add_event`, the gesture handlers, the width assignment
from the canvas, the status setter, the grid toggle, and the reset
command. -/
inductive Op where
  | add_event (timestamp : Nat) (event : EventType)
  | update_zoom (delta : ℚ)
  | update_pan (delta : ℚ)
  | set_zoom (zoom : ℚ)
  | set_pan (pan : ℚ)
  | set_width (w : Nat)
  | toggle_grid (enabled : Bool)
  | set_status (s : String)
  | reset
deriving DecidableEq

/-- Apply one operation to the grid state. -/
def Grid.apply (g : Grid) : Op → Grid
  | .add_event t e => g.add_event t e
  | .update_zoom d => g.update_zoom d
  | .update_pan d => g.update_pan d
  | .set_zoom z => g.set_zoom (F.fin z)
  | .set_pan p => g.set_pan (F.fin p)
  | .set_width w => g.set_width w
  | .toggle_grid b => g.toggle_grid b
  | .set_status s => g.set_status s
  | .reset => g.reset_state

/-- Apply a sequence of operations from left to right. -/
def Grid.run (g : Grid) (ops : List Op) : Grid :=
  ops.foldl Grid.apply g

/-- Index of the first newline in the buffer (`buffer.find(chr)` in the
source); buffered text is modelled as a list of characters. -/
def newlineIdx : List Char → Option Nat
  | [] => none
  | c :: rest => if c = '\n' then some 0 else (newlineIdx rest).map (· + 1)

/-- One item of the output sequence the `Running` state of
`EventStream::stream` can emit (`Progress`; the lifecycle items emitted
by the earlier states are not modelled).  `failure` carries the
parser's failure description and the raw offending text, as packed into
`Error::Serialize`. -/
inductive Prog (α : Type) where
  | event (chunk : α)
  | nop
  | failure (description : String) (raw : List Char)
deriving DecidableEq

/-- The `State::Running` loop of `EventStream::stream`, driven over the
list of inbound byte chunks the connection yields (bytes modelled as
characters; the lossy UTF-8 step is then the identity).  Per inbound
chunk the buffer is extended, the first newline-terminated prefix (if
any) is drained, and its payload - the prefix without the trailing
newline - is handed to the message decoder `p` (`serde_json::from_str`
in the source, kept abstract: the framing layer only inspects success
or failure).  A parse failure emits the terminal error and moves to
`State::Done`, which produces nothing; when the chunk stream is
exhausted the sequence ends. -/
def runFrom {α : Type} (p : List Char → Except String α) :
    List (List Char) → List Char → List (Prog α)
  | [], _ => []
  | c :: cs, buffer =>
      match newlineIdx (buffer ++ c) with
      | none => .nop :: runFrom p cs (buffer ++ c)
      | some location =>
          match p ((buffer ++ c).take location) with
          | .ok v => .event v :: runFrom p cs ((buffer ++ c).drop (location + 1))
          | .error e => [.failure e ((buffer ++ c).take location)]

/-- A decoder run started with the fresh (empty) buffer installed when
the connection is accepted. -/
def decodeRun {α : Type} (p : List Char → Except String α)
    (cs : List (List Char)) : List (Prog α) :=
  runFrom p cs []

/-- The decoded event chunks of an output sequence, in order. -/
def eventsOf {α : Type} : List (Prog α) → List α
  | [] => []
  | .event v :: rest => v :: eventsOf rest
  | .nop :: rest => eventsOf rest
  | .failure _ _ :: rest => eventsOf rest

/-- The zoom-floor invariant: the zoom is a finite value at least the
clamp floor (in particular strictly positive). -/
def zoomAboveFloor (g : Grid) : Prop :=
  ∃ q : ℚ, g.zoom = F.fin q ∧ zoomFloor ≤ q

/-- Whether a record is a `Task` record. -/
def EventType.isTask : EventType → Bool
  | .task _ _ => true
  | _ => false

/-- Well-formedness of one interval-tree entry: the stored bar is
closed, its end is the interval end and exceeds its start, and its
start is the interval start. -/
def barEntryOk (x : Nat × Nat × Bar) : Bool :=
  (x.2.2.end_ns == some x.2.1) && (decide (x.1 < x.2.1)) && (x.2.2.start_ns == x.1)

theorem F.sub_fin (a b : ℚ) : F.sub (F.fin a) (F.fin b) = F.fin (a - b) := rfl

theorem F.add_fin (a b : ℚ) : F.add (F.fin a) (F.fin b) = F.fin (a + b) := rfl

theorem F.mul_fin (a b : ℚ) : F.mul (F.fin a) (F.fin b) = F.fin (a * b) := rfl

theorem F.fmax_fin (a b : ℚ) : F.fmax (F.fin a) (F.fin b) = F.fin (max a b) := rfl

theorem F.fmin_fin (a b : ℚ) : F.fmin (F.fin a) (F.fin b) = F.fin (min a b) := rfl

theorem F.div_fin {a b : ℚ} (hb : b ≠ 0) :
    F.div (F.fin a) (F.fin b) = F.fin (a / b) := by
  simp only [F.div]
  rw [if_neg hb]

theorem takeFirstMatch_lt {t : Nat} {n : String} :
    ∀ {l : List Bar} {b : Bar} {rest : List Bar},
      takeFirstMatch t n l = some (b, rest) → b.start_ns < t := by
  intro l
  induction l with
  | nil => intro b rest h; simp [takeFirstMatch] at h
  | cons x xs ih =>
    intro b rest h
    simp only [takeFirstMatch] at h
    by_cases hx : x.start_ns < t ∧ x.isr = n
    · rw [if_pos hx] at h
      simp only [Option.some.injEq, Prod.mk.injEq] at h
      obtain ⟨rfl, -⟩ := h
      exact hx.1
    · rw [if_neg hx] at h
      cases htail : takeFirstMatch t n xs with
      | none => rw [htail] at h; simp at h
      | some pr =>
        obtain ⟨y, l2⟩ := pr
        rw [htail] at h
        simp only [Option.some.injEq, Prod.mk.injEq] at h
        obtain ⟨rfl, -⟩ := h
        exact ih htail

theorem takeFirstMatch_append {t : Nat} {n : String} {b : Bar}
    (hb : b.start_ns < t ∧ b.isr = n) :
    ∀ (pre post : List Bar), (∀ x ∈ pre, ¬(x.start_ns < t ∧ x.isr = n)) →
      takeFirstMatch t n (pre ++ b :: post) = some (b, pre ++ post) := by
  intro pre
  induction pre with
  | nil => intro post _; simp [takeFirstMatch, hb]
  | cons x xs ih =>
    intro post hpre
    have hx : ¬(x.start_ns < t ∧ x.isr = n) := hpre x (List.mem_cons_self x xs)
    have htail := ih post (fun y hy => hpre y (List.mem_cons_of_mem x hy))
    rw [List.cons_append]
    simp only [takeFirstMatch]
    rw [if_neg hx, htail]
    rfl

theorem fmax_fin_floor (x : F) (c : ℚ) (hx : x ≠ F.inf) :
    ∃ r : ℚ, F.fmax x (F.fin c) = F.fin r ∧ c ≤ r := by
  cases x with
  | fin a => exact ⟨max a c, rfl, le_max_right a c⟩
  | inf => exact absurd rfl hx
  | neginf => exact ⟨c, rfl, le_refl c⟩
  | nan => exact ⟨c, rfl, le_refl c⟩

theorem div_nonpos_ne_inf {a b : ℚ} (ha : a ≤ 0) :
    F.div (F.fin a) (F.fin b) ≠ F.inf := by
  simp only [F.div]
  by_cases hb : b = 0
  · rw [if_pos hb]
    by_cases ha0 : a = 0
    · rw [if_pos ha0]; intro h; cases h
    · rw [if_neg ha0, if_neg (not_lt.mpr ha)]; intro h; cases h
  · rw [if_neg hb]; intro h; cases h

theorem auto_fit_zoomAboveFloor (g : Grid) : zoomAboveFloor g.auto_fit := by
  have hnum : (0 : ℚ) - (g.width : ℚ) ≤ 0 := sub_nonpos.mpr (Nat.cast_nonneg _)
  obtain ⟨r, hr, hle⟩ :=
    fmax_fin_floor
      (F.div (F.fin ((0 : ℚ) - (g.width : ℚ))) (F.fin ((g.min : ℚ) - (g.max : ℚ))))
      zoomFloor (div_nonpos_ne_inf hnum)
  refine ⟨r, ?_, hle⟩
  show F.fmax
      (F.div (F.sub (F.fin 0) (F.fin (g.width : ℚ))) (F.sub (F.fin (g.min : ℚ)) (F.fin (g.max : ℚ))))
      (F.fin zoomFloor) = F.fin r
  simpa [F.sub] using hr

theorem finishTask_zoomAboveFloor (g : Grid) : zoomAboveFloor g.finishTask := by
  obtain ⟨r, hr, hle⟩ := auto_fit_zoomAboveFloor g
  exact ⟨r, hr, hle⟩

theorem apply_zoomAboveFloor {g : Grid} {op : Op} (hg : zoomAboveFloor g)
    (hop : op ≠ Op.reset) : zoomAboveFloor (g.apply op) := by
  obtain ⟨q, hq, hle⟩ := hg
  cases op with
  | add_event t e =>
    cases e with
    | overflow => exact ⟨q, hq, hle⟩
    | task name action => exact finishTask_zoomAboveFloor _
    | unknown payload => exact ⟨q, hq, hle⟩
    | unmappable payload extra => exact ⟨q, hq, hle⟩
    | invalid payload => exact ⟨q, hq, hle⟩
  | update_zoom d =>
    obtain ⟨r, hr, hrle⟩ :=
      fmax_fin_floor (F.mul (F.fin q) (F.fin (1 + d / 100))) zoomFloor (by intro h; cases h)
    refine ⟨r, ?_, hrle⟩
    show F.fmax (F.mul g.zoom (F.fin (1 + d / 100))) (F.fin zoomFloor) = F.fin r
    rw [hq]
    exact hr
  | update_pan d => exact ⟨q, hq, hle⟩
  | set_zoom z =>
    obtain ⟨r, hr, hrle⟩ := fmax_fin_floor (F.fin z) zoomFloor (by intro h; cases h)
    exact ⟨r, hr, hrle⟩
  | set_pan p => exact ⟨q, hq, hle⟩
  | set_width w => exact ⟨q, hq, hle⟩
  | toggle_grid b => exact ⟨q, hq, hle⟩
  | set_status s => exact ⟨q, hq, hle⟩
  | reset => exact absurd rfl hop

theorem run_zoomAboveFloor : ∀ (ops : List Op) (g : Grid), zoomAboveFloor g →
    (∀ op ∈ ops, op ≠ Op.reset) → zoomAboveFloor (g.run ops) := by
  intro ops
  induction ops with
  | nil => intro g hg _; exact hg
  | cons op rest ih =>
    intro g hg hops
    exact ih (g.apply op) (apply_zoomAboveFloor hg (hops op (List.mem_cons_self op rest)))
      (fun o ho => hops o (List.mem_cons_of_mem op ho))

theorem apply_bars_ok {g : Grid} (op : Op) (h : g.bars.all barEntryOk = true) :
    ((g.apply op).bars.all barEntryOk) = true := by
  cases op with
  | add_event t e =>
    cases e with
    | overflow => simpa [Grid.apply, Grid.add_event] using h
    | task name action =>
      cases action with
      | entered =>
        simpa [Grid.apply, Grid.add_event, Grid.finishTask, Grid.auto_fit,
          Grid.set_zoom, Grid.set_pan] using h
      | exited =>
        cases htfm : takeFirstMatch t name g.started_bars with
        | none =>
          simpa [Grid.apply, Grid.add_event, Grid.finishTask, Grid.auto_fit,
            Grid.set_zoom, Grid.set_pan, htfm] using h
        | some pr =>
          obtain ⟨b, rest⟩ := pr
          have hlt : b.start_ns < t := takeFirstMatch_lt htfm
          simp [Grid.apply, Grid.add_event, Grid.finishTask, Grid.auto_fit,
            Grid.set_zoom, Grid.set_pan, htfm, List.all_append, h, barEntryOk, hlt]
      | returned =>
        simpa [Grid.apply, Grid.add_event, Grid.finishTask, Grid.auto_fit,
          Grid.set_zoom, Grid.set_pan] using h
    | unknown payload => simpa [Grid.apply, Grid.add_event] using h
    | unmappable payload extra => simpa [Grid.apply, Grid.add_event] using h
    | invalid payload => simpa [Grid.apply, Grid.add_event] using h
  | update_zoom d => simpa [Grid.apply, Grid.update_zoom] using h
  | update_pan d => simpa [Grid.apply, Grid.update_pan] using h
  | set_zoom z => simpa [Grid.apply, Grid.set_zoom] using h
  | set_pan p => simpa [Grid.apply, Grid.set_pan] using h
  | set_width w => simpa [Grid.apply, Grid.set_width] using h
  | toggle_grid b => simpa [Grid.apply, Grid.toggle_grid] using h
  | set_status s => simpa [Grid.apply, Grid.set_status] using h
  | reset => simp [Grid.apply, Grid.reset_state]

theorem run_bars_ok : ∀ (ops : List Op) (g : Grid), g.bars.all barEntryOk = true →
    ((g.run ops).bars.all barEntryOk) = true := by
  intro ops
  induction ops with
  | nil => intro g hg; exact hg
  | cons op rest ih => intro g hg; exact ih (g.apply op) (apply_bars_ok op hg)

theorem add_event_min (g : Grid) (t : Nat) (e : EventType) :
    (g.add_event t e).min = Nat.min g.min t := by
  cases e with
  | overflow => simp [Grid.add_event]
  | task name action =>
    cases action with
    | entered =>
      simp [Grid.add_event, Grid.finishTask, Grid.auto_fit, Grid.set_zoom, Grid.set_pan]
    | exited =>
      cases htfm : takeFirstMatch t name g.started_bars with
      | none =>
        simp [Grid.add_event, Grid.finishTask, Grid.auto_fit, Grid.set_zoom,
          Grid.set_pan, htfm]
      | some pr =>
        obtain ⟨b, rest⟩ := pr
        simp [Grid.add_event, Grid.finishTask, Grid.auto_fit, Grid.set_zoom,
          Grid.set_pan, htfm]
    | returned =>
      simp [Grid.add_event, Grid.finishTask, Grid.auto_fit, Grid.set_zoom, Grid.set_pan]
  | unknown payload => simp [Grid.add_event]
  | unmappable payload extra => simp [Grid.add_event]
  | invalid payload => simp [Grid.add_event]

theorem auto_fit_eq (g : Grid) :
    g.auto_fit =
      (g.set_zoom
          (F.div (F.fin ((0 : ℚ) - (g.width : ℚ)))
            (F.fin ((g.min : ℚ) - (g.max : ℚ))))).set_pan
        (F.sub
          (F.div (F.fin 0)
            (F.div (F.fin ((0 : ℚ) - (g.width : ℚ))) (F.fin ((g.min : ℚ) - (g.max : ℚ)))))
          (F.fin (g.min : ℚ))) := rfl

theorem add_event_task_viewport (g : Grid) (t : Nat) (name : String) (a : TaskAction) :
    (g.add_event t (.task name a)).zoom =
      F.fmax
        (F.div (F.fin ((0 : ℚ) - (g.width : ℚ)))
          (F.fin ((Nat.min g.min t : ℚ) - (Nat.max g.max t : ℚ))))
        (F.fin zoomFloor) ∧
    (g.add_event t (.task name a)).pan =
      F.fmin
        (F.sub
          (F.div (F.fin 0)
            (F.div (F.fin ((0 : ℚ) - (g.width : ℚ)))
              (F.fin ((Nat.min g.min t : ℚ) - (Nat.max g.max t : ℚ)))))
          (F.fin (Nat.min g.min t : ℚ)))
        (F.fin (1 / 2)) := by
  cases a with
  | entered => exact ⟨rfl, rfl⟩
  | exited =>
    cases htfm : takeFirstMatch t name g.started_bars with
    | none =>
      constructor <;>
        simp [Grid.add_event, Grid.finishTask, Grid.auto_fit, Grid.set_zoom, Grid.set_pan,
          F.sub_fin, htfm]
    | some pr =>
      obtain ⟨b, rest⟩ := pr
      constructor <;>
        simp [Grid.add_event, Grid.finishTask, Grid.auto_fit, Grid.set_zoom, Grid.set_pan,
          F.sub_fin, htfm]
  | returned => exact ⟨rfl, rfl⟩

/-- The grid reached from a fresh session by `Entered`/`Exited` events
for task A at t = 100 and t = 500, with screen width 1000. -/
def gC1 : Grid :=
  ((Grid.new.set_width 1000).add_event 100 (.task ("A") .entered)).add_event 500
    (.task ("A") .exited)

/-- C1: refuted by evaluation (see the corresponding result entry).
After inserting a span over [100, 500] into an empty model with screen
width 1000, the recorded minimum is still 0 - `min` is initialised to 0
and only ever lowered - so auto-fit maps [0, 500] onto [0, 1000]:
`screen_x(100) = 200`, not 0 as the claim states, while
`screen_x(500) = 1000`. -/
theorem c1_autofit_bug :
    gC1.bars = [(100, 500, { start_ns := 100, end_ns := some 500, isr := "A", channel := 0 })] ∧
    gC1.min = 0 ∧ gC1.max = 500 ∧
    gC1.zoom = F.fin 2 ∧ gC1.pan = F.fin 0 ∧
    gC1.screen_x 500 = F.fin 1000 ∧
    gC1.screen_x 100 = F.fin 200 ∧
    gC1.screen_x 100 ≠ F.fin 0 := by
  have hview := add_event_task_viewport
    ((Grid.new.set_width 1000).add_event 100 (.task ("A") .entered)) 500 ("A") .exited
  have hw : ((Grid.new.set_width 1000).add_event 100 (.task ("A") .entered)).width = 1000 := by
    decide
  have hmn : ((Grid.new.set_width 1000).add_event 100 (.task ("A") .entered)).min = 0 := by
    decide
  have hmx : ((Grid.new.set_width 1000).add_event 100 (.task ("A") .entered)).max = 100 := by
    decide
  rw [hw, hmn, hmx, show Nat.min 0 500 = 0 from rfl, show Nat.max 100 500 = 500 by decide]
    at hview
  have hdiv : F.div (F.fin ((0 : ℚ) - ((1000 : ℕ) : ℚ)))
      (F.fin (((0 : ℕ) : ℚ) - ((500 : ℕ) : ℚ))) = F.fin (-1000 / -500) := by
    rw [F.div_fin (by push_cast; norm_num)]
    push_cast
    norm_num
  rw [hdiv] at hview
  have hq2 : ((-1000 : ℚ) / -500) = 2 := by norm_num
  rw [hq2] at hview
  have hgc : gC1 = ((Grid.new.set_width 1000).add_event 100
      (.task ("A") .entered)).add_event 500 (.task ("A") .exited) := rfl
  have hzoom : gC1.zoom = F.fin 2 := by
    rw [hgc, hview.1, F.fmax_fin]
    rw [max_eq_left (by norm_num [zoomFloor])]
  have hpan : gC1.pan = F.fin 0 := by
    rw [hgc, hview.2, F.div_fin (by norm_num), F.sub_fin, F.fmin_fin]
    push_cast
    rw [show ((0 : ℚ) / 2 - 0) = 0 by norm_num]
    rw [min_eq_left (by norm_num)]
  refine ⟨by decide, by decide, by decide, hzoom, hpan, ?_, ?_, ?_⟩
  · rw [Grid.screen_x, hzoom, hpan, F.mul_fin, F.mul_fin, F.add_fin]
    push_cast
    norm_num
  · rw [Grid.screen_x, hzoom, hpan, F.mul_fin, F.mul_fin, F.add_fin]
    push_cast
    norm_num
  · rw [Grid.screen_x, hzoom, hpan, F.mul_fin, F.mul_fin, F.add_fin]
    push_cast
    norm_num

/-- The message decoder that accepts every payload unchanged; the
framing layer is parametric in the decoder, so chunk-boundary
independence of framing can be probed with it. -/
def okDecode : List Char → Except String (List Char) := fun payload => Except.ok payload

/-- C2 counterexample: the byte stream consisting of two
newline-terminated messages yields one decoded chunk when delivered as
a single inbound chunk, but two when delivered byte by byte - the
decoded sequences differ. -/
theorem c2_counterexample :
    eventsOf (decodeRun okDecode [("A\nB\n").toList]) ≠
      eventsOf (decodeRun okDecode [['A'], ['\n'], ['B'], ['\n']]) := by decide

/-- C2 (amended): framing is not chunk-boundary independent.  At most
one message is extracted per inbound chunk, and buffered messages are
only produced while further chunks arrive, so the number of decoded
event chunks never exceeds the number of inbound chunks (whatever the
message decoder and the initial buffer). -/
theorem c2_at_most_one_per_chunk {α : Type} (p : List Char → Except String α)
    (cs : List (List Char)) (buffer : List Char) :
    (eventsOf (runFrom p cs buffer)).length ≤ cs.length := by
  induction cs generalizing buffer with
  | nil => simp [runFrom, eventsOf]
  | cons c rest ih =>
    cases hnl : newlineIdx (buffer ++ c) with
    | none =>
      simp only [runFrom, hnl, eventsOf, List.length_cons]
      exact Nat.le_succ_of_le (ih _)
    | some loc =>
      cases hp : p ((buffer ++ c).take loc) with
      | ok v =>
        simp only [runFrom, hnl, hp, eventsOf, List.length_cons]
        exact Nat.succ_le_succ (ih _)
      | error e =>
        simp only [runFrom, hnl, hp, eventsOf, List.length_cons, List.length_nil]
        exact Nat.zero_le _

/-- C3: FIFO exit matching.  If the open-span list splits as
`pre ++ b :: post` where no entry of `pre` matches (name equal and
start strictly before the exit timestamp) and `b` matches, then an
`Exited` event removes exactly `b`, closes it at the exit timestamp,
and inserts it into the index keyed by its interval. -/
theorem c3_fifo_exit (g : Grid) (name : String) (t : Nat)
    (pre post : List Bar) (b : Bar)
    (hsplit : g.started_bars = pre ++ b :: post)
    (hb : b.start_ns < t ∧ b.isr = name)
    (hpre : ∀ x ∈ pre, ¬(x.start_ns < t ∧ x.isr = name)) :
    (g.add_event t (.task name .exited)).started_bars = pre ++ post ∧
    (g.add_event t (.task name .exited)).bars =
      g.bars ++ [(b.start_ns, t, { b with end_ns := some t })] := by
  have htfm : takeFirstMatch t name g.started_bars = some (b, pre ++ post) := by
    rw [hsplit]; exact takeFirstMatch_append hb pre post hpre
  constructor <;>
    simp [Grid.add_event, Grid.finishTask, Grid.auto_fit, Grid.set_zoom, Grid.set_pan, htfm]

/-- The grid after two `Entered` events for task A at t = 10 and
t = 20. -/
def G2 : Grid :=
  (Grid.new.add_event 10 (.task ("A") .entered)).add_event 20 (.task ("A") .entered)

/-- C3 witness: with two open spans for A started at t = 10 and t = 20,
an `Exited` A at t = 30 closes the span started at t = 10 (oldest
first), leaving the t = 20 span open. -/
theorem c3_fifo_exit_witness :
    (G2.add_event 30 (.task ("A") .exited)).started_bars =
      [{ start_ns := 20, end_ns := none, isr := "A", channel := 0 }] ∧
    (G2.add_event 30 (.task ("A") .exited)).bars =
      [(10, 30, { start_ns := 10, end_ns := some 30, isr := "A", channel := 0 })] := by
  have h := c3_fifo_exit G2 ("A") 30 []
    [{ start_ns := 20, end_ns := none, isr := "A", channel := 0 }]
    { start_ns := 10, end_ns := none, isr := "A", channel := 0 }
    (by decide) (by decide) (by simp)
  refine ⟨?_, ?_⟩
  · rw [h.1]; rfl
  · rw [h.2]; decide

/-- C4 counterexample: after one `Entered` event, the reset command
leaves both the open-span list and the channel map non-empty, so it
does not clear OpenSpanTracker or ChannelMap as the claim states. -/
theorem c4_counterexample :
    ((Grid.new.add_event 5 (.task ("A") .entered)).reset_state).started_bars ≠ [] ∧
    ((Grid.new.add_event 5 (.task ("A") .entered)).reset_state).channel_map ≠ [] := by
  decide

/-- C4 (amended): the reset command empties the span index and restores
zoom and pan to the initial constants (`INITIAL_ZOOM = 0.0`,
`INITIAL_PAN = 0.5`), but leaves the open-span list and the channel map
untouched. -/
theorem c4_reset_effects (g : Grid) :
    (g.reset_state).bars = [] ∧
    (g.reset_state).zoom = F.fin initialZoom ∧
    (g.reset_state).pan = F.fin initialPan ∧
    (g.reset_state).started_bars = g.started_bars ∧
    (g.reset_state).channel_map = g.channel_map ∧
    (g.reset_state).bar_cache_stale = true ∧
    (g.reset_state).grid_cache_stale = true :=
  ⟨rfl, rfl, rfl, rfl, rfl, rfl, rfl⟩

/-- C5 counterexample: the reset operation - one of the operations the
claim quantifies over - sets the zoom directly to `INITIAL_ZOOM = 0.0`,
which is zero, so the zoom does not stay at a strictly positive
floor. -/
theorem c5_counterexample :
    (Grid.new.run [Op.reset]).zoom = F.fin 0 ∧
    ¬ zoomAboveFloor (Grid.new.run [Op.reset]) := by
  constructor
  · rfl
  · rintro ⟨q, hq, hle⟩
    have h0 : (Grid.new.run [Op.reset]).zoom = F.fin 0 := rfl
    rw [h0] at hq
    injection hq with hq0
    rw [← hq0] at hle
    exact absurd hle (by norm_num [zoomFloor])

/-- C5 (amended): after any sequence of `set_zoom`, `update_zoom`,
auto-fit (via `add_event`) and the other grid operations except reset,
starting from the initial state, the zoom is a finite value at least
the floor `1e-8`, hence never zero or negative; reset, however, writes
`INITIAL_ZOOM = 0.0` without clamping. -/
theorem c5_zoom_floor (ops : List Op) (hops : ∀ op ∈ ops, op ≠ Op.reset) :
    zoomAboveFloor (Grid.new.run ops) :=
  run_zoomAboveFloor ops Grid.new ⟨max (1280 / 100) zoomFloor, rfl, le_max_right _ _⟩ hops

/-- C5 witness: two scroll gestures with delta -200 multiply the zoom
by -1 each time; the clamp keeps it at the positive floor. -/
theorem c5_zoom_floor_witness :
    (∀ op ∈ [Op.update_zoom (-200), Op.update_zoom (-200)], op ≠ Op.reset) ∧
    zoomAboveFloor (Grid.new.run [Op.update_zoom (-200), Op.update_zoom (-200)]) :=
  ⟨by decide, c5_zoom_floor _ (by decide)⟩

/-- C6: for every operation sequence from the initial state - in
particular every sequence of ingested events - every entry of the span
index stores a closed span whose end equals the interval end and
strictly exceeds its start, which equals the interval start. -/
theorem c6_no_dangling (ops : List Op) :
    ((Grid.new.run ops).bars.all barEntryOk) = true :=
  run_bars_ok ops Grid.new (by decide)

/-- C7 counterexample: a `Task` event at t = 0 on a fresh grid leaves
`min = max`, yet the auto-fit recomputation does not leave the zoom
unchanged: the division yields a non-finite value and the clamp then
forces the zoom to the floor. -/
theorem c7_counterexample :
    (Grid.new.add_event 0 (.task ("A") .entered)).min =
      (Grid.new.add_event 0 (.task ("A") .entered)).max ∧
    (Grid.new.add_event 0 (.task ("A") .entered)).zoom ≠ Grid.new.zoom := by
  refine ⟨by decide, ?_⟩
  have hview := add_event_task_viewport Grid.new 0 ("A") .entered
  have hraw : F.div (F.fin ((0 : ℚ) - ((Grid.new.width : ℕ) : ℚ)))
      (F.fin ((Nat.min Grid.new.min 0 : ℚ) - (Nat.max Grid.new.max 0 : ℚ))) = F.nan := by
    rw [show Grid.new.width = 0 from rfl, show Nat.min Grid.new.min 0 = 0 from rfl,
      show Nat.max Grid.new.max 0 = 0 from rfl]
    have h1 : ((0 : ℚ) - ((0 : ℕ) : ℚ)) = 0 := by push_cast; ring
    have h2 : (((0 : ℕ) : ℚ) - ((0 : ℕ) : ℚ)) = 0 := by push_cast; ring
    rw [h1, h2]
    simp [F.div]
  rw [hview.1, hraw]
  rw [show F.fmax F.nan (F.fin zoomFloor) = F.fin zoomFloor from rfl]
  rw [show Grid.new.zoom = F.fin (max (1280 / 100) zoomFloor) from rfl]
  intro heq
  injection heq with heq0
  have hle : (1280 / 100 : ℚ) ≤ max (1280 / 100) zoomFloor := le_max_left _ _
  rw [← heq0] at hle
  have : ¬ ((1280 / 100 : ℚ) ≤ zoomFloor) := by norm_num [zoomFloor]
  exact this hle

/-- C7 (amended): when `data_max = data_min` the auto-fit recomputation
is still well defined (float division by zero yields NaN or a signed
infinity, there is no trap), but zoom and pan are not left unchanged:
the zoom is clamped to the floor `1e-8`, and the pan becomes `0.5`
when the width is zero (NaN fed to the clamp) and `-data_min`
otherwise. -/
theorem c7_degenerate_autofit (g : Grid) (h : g.min = g.max) :
    (g.auto_fit).zoom = F.fin zoomFloor ∧
    (g.auto_fit).pan =
      (if g.width = 0 then F.fin (1 / 2) else F.fin (-(g.min : ℚ))) := by
  have hzero : ((g.min : ℚ) - (g.max : ℚ)) = 0 := by rw [h]; ring
  rw [auto_fit_eq]
  by_cases hw : g.width = 0
  · have ha : ((0 : ℚ) - (g.width : ℚ)) = 0 := by rw [hw]; norm_num
    have hraw : F.div (F.fin ((0 : ℚ) - (g.width : ℚ)))
        (F.fin ((g.min : ℚ) - (g.max : ℚ))) = F.nan := by
      rw [ha, hzero]
      simp only [F.div, if_true]
    rw [hraw]
    simp only [Grid.set_zoom, Grid.set_pan]
    rw [if_pos hw]
    exact ⟨rfl, rfl⟩
  · have hwpos : (0 : ℚ) < (g.width : ℚ) := by exact_mod_cast Nat.pos_of_ne_zero hw
    have ha : ((0 : ℚ) - (g.width : ℚ)) < 0 := by linarith
    have hane : ((0 : ℚ) - (g.width : ℚ)) ≠ 0 := ne_of_lt ha
    have hanlt : ¬ (0 : ℚ) < ((0 : ℚ) - (g.width : ℚ)) := not_lt.mpr (le_of_lt ha)
    have hraw : F.div (F.fin ((0 : ℚ) - (g.width : ℚ)))
        (F.fin ((g.min : ℚ) - (g.max : ℚ))) = F.neginf := by
      rw [hzero]
      simp only [F.div, if_true]
      rw [if_neg hane, if_neg hanlt]
    have hmin : min (-(g.min : ℚ)) (1 / 2) = -(g.min : ℚ) := by
      apply min_eq_left
      have hnn : (0 : ℚ) ≤ (g.min : ℚ) := Nat.cast_nonneg _
      linarith
    rw [hraw]
    simp only [Grid.set_zoom, Grid.set_pan]
    rw [if_neg hw]
    refine ⟨rfl, ?_⟩
    rw [show F.div (F.fin 0) F.neginf = F.fin 0 from rfl, F.sub_fin, F.fmin_fin, zero_sub, hmin]

/-- C7 witness: the fresh grid has `min = max = 0` and width 0; its
auto-fit recomputation sets the zoom to the floor and the pan to
`0.5`. -/
theorem c7_degenerate_autofit_witness :
    Grid.new.min = Grid.new.max ∧
    (Grid.new.auto_fit).zoom = F.fin zoomFloor ∧
    (Grid.new.auto_fit).pan = F.fin (1 / 2) := by
  have h := c7_degenerate_autofit Grid.new (by decide)
  refine ⟨by decide, h.1, ?_⟩
  rw [h.2, if_pos (show Grid.new.width = 0 from rfl)]

/-- C8: an empty extracted line (a newline immediately following a
previous one) is handed to the message decoder as the empty payload;
the decoder's failure becomes a terminal decode error carrying the
failure description and the raw (empty) offending text, and the
stream produces nothing afterwards, whatever chunks follow. -/
theorem c8_empty_line_error (α : Type) (p : List Char → Except String α)
    (m : String) (e : α)
    (hempty : p [] = Except.error m) (hmsg : p ['X'] = Except.ok e)
    (c2 : List Char) (cs : List (List Char)) :
    decodeRun p (("X\n\n").toList :: c2 :: cs) = [Prog.event e, Prog.failure m []] := by
  have step1 : decodeRun p (("X\n\n").toList :: c2 :: cs) =
      (match p ['X'] with
       | .ok v => Prog.event v :: runFrom p (c2 :: cs) ['\n']
       | .error msg => [Prog.failure msg ['X']]) := rfl
  rw [step1, hmsg]
  show Prog.event e :: runFrom p (c2 :: cs) ['\n'] = _
  have step2 : runFrom p (c2 :: cs) ['\n'] =
      (match p [] with
       | .ok v => Prog.event v :: runFrom p cs ((('\n' :: c2) : List Char).drop 1)
       | .error msg => [Prog.failure msg []]) := rfl
  rw [step2, hempty]

/-- The error text of the stub message decoder. -/
def errText : String := "expected a value"

/-- A stub message decoder: accepts exactly the payload consisting of
the single character X, fails on everything else. -/
def stubDecode : List Char → Except String (List Char) := fun payload =>
  if payload = ['X'] then Except.ok payload else Except.error errText

/-- C8 witness: with the stub decoder, the stream consisting of the
chunk with one message followed by an empty line, then one more chunk,
yields the decoded message and then the terminal error with the empty
raw text. -/
theorem c8_empty_line_error_witness :
    stubDecode [] = Except.error errText ∧
    stubDecode ['X'] = Except.ok ['X'] ∧
    decodeRun stubDecode [("X\n\n").toList, ['Y']] =
      [Prog.event ['X'], Prog.failure errText []] :=
  ⟨rfl, rfl,
    c8_empty_line_error (List Char) stubDecode errText ['X'] rfl rfl ['Y'] []⟩

/-- C9 counterexample: an `Entered` event does not mutate the span
index, yet it marks the bar cache stale (and recomputes the
viewport), so span-index mutation is not the only ingestion path that
invalidates rendering caches. -/
theorem c9_counterexample :
    (Grid.new.add_event 5 (.task ("A") .entered)).bars = Grid.new.bars ∧
    (Grid.new.add_event 5 (.task ("A") .entered)).bar_cache_stale = true ∧
    (Grid.new.add_event 5 (.task ("A") .entered)).grid_cache_stale = true ∧
    Grid.new.bar_cache_stale = false ∧
    Grid.new.grid_cache_stale = false := by decide

/-- C9 (amended): from the ingestion side, the auto-fit recomputation
and the cache invalidation happen on every `Task` record - `Entered`,
`Exited` (matched or not) and `Returned` alike - not exactly when the
span index is mutated; every successful span close is a `Task` record,
so it does trigger an unconditional recompute, and non-`Task` records
leave caches, zoom, pan and the span index untouched. -/
theorem c9_invalidation (g : Grid) (t : Nat) (ev : EventType) :
    ((g.add_event t ev).bar_cache_stale = (g.bar_cache_stale || ev.isTask)) ∧
    ((g.add_event t ev).grid_cache_stale = (g.grid_cache_stale || ev.isTask)) ∧
    (ev.isTask = false →
      (g.add_event t ev).zoom = g.zoom ∧ (g.add_event t ev).pan = g.pan ∧
      (g.add_event t ev).bars = g.bars) := by
  cases ev with
  | overflow => exact ⟨by simp [Grid.add_event, EventType.isTask], by simp [Grid.add_event, EventType.isTask], fun _ => ⟨rfl, rfl, rfl⟩⟩
  | task name action =>
    refine ⟨?_, ?_, ?_⟩
    · simp [Grid.add_event, Grid.finishTask, EventType.isTask]
    · simp [Grid.add_event, Grid.finishTask, EventType.isTask]
    · intro hfalse; simp [EventType.isTask] at hfalse
  | unknown payload => exact ⟨by simp [Grid.add_event, EventType.isTask], by simp [Grid.add_event, EventType.isTask], fun _ => ⟨rfl, rfl, rfl⟩⟩
  | unmappable payload extra => exact ⟨by simp [Grid.add_event, EventType.isTask], by simp [Grid.add_event, EventType.isTask], fun _ => ⟨rfl, rfl, rfl⟩⟩
  | invalid payload => exact ⟨by simp [Grid.add_event, EventType.isTask], by simp [Grid.add_event, EventType.isTask], fun _ => ⟨rfl, rfl, rfl⟩⟩

/-- C9 witness: an `Overflow` record is not a `Task` record and leaves
zoom, pan and the span index unchanged. -/
theorem c9_invalidation_witness :
    EventType.overflow.isTask = false ∧
    (Grid.new.add_event 1 EventType.overflow).zoom = Grid.new.zoom ∧
    (Grid.new.add_event 1 EventType.overflow).pan = Grid.new.pan ∧
    (Grid.new.add_event 1 EventType.overflow).bars = Grid.new.bars :=
  ⟨by decide,
    ((c9_invalidation Grid.new 1 EventType.overflow).2.2 (by decide)).1,
    ((c9_invalidation Grid.new 1 EventType.overflow).2.2 (by decide)).2.1,
    ((c9_invalidation Grid.new 1 EventType.overflow).2.2 (by decide)).2.2⟩

/-- C10: for every sequence of ingested events, the grid's recorded
minimum timestamp stays 0: it starts at 0 and is only ever replaced by
`min(min, timestamp)` over natural timestamps. -/
theorem c10_min_stays_zero (events : List (Nat × EventType)) :
    ((events.foldl (fun g pe => g.add_event pe.1 pe.2) Grid.new).min) = 0 := by
  have key : ∀ (l : List (Nat × EventType)) (g : Grid), g.min = 0 →
      ((l.foldl (fun g pe => g.add_event pe.1 pe.2) g).min) = 0 := by
    intro l
    induction l with
    | nil => intro g hg; exact hg
    | cons pe rest ih =>
      intro g hg
      refine ih _ ?_
      rw [add_event_min, hg]
      exact Nat.zero_min _
  exact key events Grid.new rfl

end Racer
